import Mathlib

/-!
# Virtual-display frame output (`cmds/con-vd/VDFrameOutput.cpp`)

A shallow embedding of the frame output coordinator: the timestamp comparator
`TimestampFinder`, the byte helpers `setValueLE` and `reduceRgbaToRgb`, and the
blocking `copyFrame` with its drain loop.

Conventions.
* `nsecs_t` (int64) timestamps are `Int`; they are only ever compared, never
  added, so no wrap-around can occur.  `uint32_t`/`uint8_t` values are `Nat`
  with explicit `% 256` where the source casts.
* Raw memory reached through a `uint8_t*` is a `List Nat` indexed from the
  pointer; an access outside the list is a failed run (`none`).
* What other threads and the platform do (the timed wait, the frame-available
  callback, the buffer pool, the pixel lock) is supplied as explicit arguments.
-/

namespace VD

/-! ## Raw byte memory -/

/-- Bytes reachable from a `uint8_t*`, index 0 being the pointee. -/
abbrev Bytes := List Nat

/-- Read `*(p)`; `none` when `p` is outside the buffer. -/
def load (m : Bytes) (p : Nat) : Option Nat := m[p]?

/-- Write `*(p) = v`; `none` when `p` is outside the buffer. -/
def store (m : Bytes) (p : Nat) (v : Nat) : Option Bytes :=
  if p < m.length then some (m.set p v) else none

/-! ## Status codes -/

/-- Status constants that come from headers outside the repository
(`errno.h`, `utils/Errors.h`); the model takes them as parameters. -/
structure StatusCodes where
  NO_ERROR : Int
  OK : Int
  ETIMEDOUT : Int
deriving DecidableEq

/-- The values these constants have on Android/Linux, used for concrete runs. -/
def androidCodes : StatusCodes := { NO_ERROR := 0, OK := 0, ETIMEDOUT := 110 }

/-! ## Buffer items -/

/-- The fields of `BufferItem` that the coordinator reads.  `mGraphicBuffer`
is `none` for a NULL `sp<GraphicBuffer>` and otherwise a buffer handle. -/
structure BufferItem where
  mSlot : Int
  mFrameNumber : Nat
  mTimestamp : Int
  mGraphicBuffer : Option Nat
deriving DecidableEq

/-- The fields of `RingBufferConsumer::BufferInfo` that `compare` reads. -/
structure BufferInfo where
  mFrameNumber : Nat
  mTimestamp : Int
deriving DecidableEq

/-- The `BufferInfo` the pool fills in for an item before calling the filter. -/
def BufferItem.info (item : BufferItem) : BufferInfo :=
  { mFrameNumber := item.mFrameNumber, mTimestamp := item.mTimestamp }

/-! ## `TimestampFinder` -/

/-- The comparator object: its only state is the baseline `mTimestamp`. -/
structure TimestampFinder where
  mTimestamp : Int
deriving DecidableEq

namespace TimestampFinder

def SELECT_I1 : Int := -1

def SELECT_I2 : Int := 1

def SELECT_NEITHER : Int := 0

/-- `TimestampFinder::compare(i1, i2)`; `none` is a NULL pointer.  The branch
structure follows the source: the repeated `i1 == NULL` test of the second
branch cannot succeed there, and in the both-present case the inner test on
`i2` only prints and then falls through to `return 0`. -/
def compare (self : TimestampFinder) (i1 i2 : Option BufferInfo) : Int :=
  match i1 with
  | none =>
    match i2 with
    | none => 0
    | some b => if b.mTimestamp > self.mTimestamp then SELECT_I2 else 0
  | some a =>
    match i2 with
    | none => if a.mTimestamp > self.mTimestamp then SELECT_I1 else 0
    | some b =>
      if a.mTimestamp > self.mTimestamp then SELECT_I1
      else if b.mTimestamp > self.mTimestamp then 0
      else 0

end TimestampFinder

/-- The file-static `timestampFinder = TimestampFinder(0)`. -/
def timestampFinder0 : TimestampFinder := { mTimestamp := 0 }

/-- An item is designated by the comparator when some call of `compare`
having the item as one argument answers "select this argument". -/
def Designated (f : TimestampFinder) (item : BufferItem) : Prop :=
  ∃ o : Option BufferInfo,
    f.compare (some item.info) o = TimestampFinder.SELECT_I1 ∨
    f.compare o (some item.info) = TimestampFinder.SELECT_I2

/-! ## Byte helpers of `VDFrameOutput` -/

/-- The two cursors of `reduceRgbaToRgb` over the shared buffer: `buf` is the
write pointer, `readPtr` the read pointer, both as offsets from the original
`buf`. -/
structure RgbCursor where
  mem : Bytes
  buf : Nat
  readPtr : Nat
deriving DecidableEq

/-- One statement `*buf++ = *readPtr++`. -/
def copyByte (c : RgbCursor) : Option RgbCursor :=
  match load c.mem c.readPtr with
  | none => none
  | some v =>
    match store c.mem c.buf v with
    | none => none
    | some m => some { mem := m, buf := c.buf + 1, readPtr := c.readPtr + 1 }

/-- The loop body: three copies, then `readPtr++` to skip alpha. -/
def reduceBody (c : RgbCursor) : Option RgbCursor :=
  match copyByte c with
  | none => none
  | some c1 =>
    match copyByte c1 with
    | none => none
    | some c2 =>
      match copyByte c2 with
      | none => none
      | some c3 => some { c3 with readPtr := c3.readPtr + 1 }

/-- The loop `for (i = 0; i < pixelCount; i++)`, by the number of iterations
still to run.  The counter stays below `pixelCount`, so `i++` never wraps. -/
def reduceLoop : Nat → RgbCursor → Option RgbCursor
  | 0, c => some c
  | k + 1, c =>
    match reduceBody c with
    | none => none
    | some c1 => reduceLoop k c1

namespace VDFrameOutput

/-- `VDFrameOutput::setValueLE(buf, value)`: four byte stores, each a
`(uint8_t)` cast of a right shift of the 32-bit value. -/
def setValueLE (buf : Bytes) (value : Nat) : Option Bytes :=
  match store buf 0 (value % 256) with
  | none => none
  | some m0 =>
    match store m0 1 ((value >>> 8) % 256) with
    | none => none
    | some m1 =>
      match store m1 2 ((value >>> 16) % 256) with
      | none => none
      | some m2 => store m2 3 ((value >>> 24) % 256)

/-- `VDFrameOutput::reduceRgbaToRgb(buf, pixelCount)`: the buffer contents
after the loop, or `none` if a pointer left the buffer. -/
def reduceRgbaToRgb (buf : Bytes) (pixelCount : Nat) : Option Bytes :=
  match reduceLoop pixelCount { mem := buf, buf := 0, readPtr := 0 } with
  | none => none
  | some c => some c.mem

end VDFrameOutput

/-- Little-endian decoding of the first four bytes of a buffer. -/
def decodeLE (m : Bytes) : Option Nat :=
  match m[0]?, m[1]?, m[2]?, m[3]? with
  | some b0, some b1, some b2, some b3 => some (b0 + 256 * b1 + 65536 * b2 + 16777216 * b3)
  | _, _, _, _ => none

/-- Offset read by the copy that writes offset `j`: pixel `j / 3`, channel `j % 3`. -/
def srcIndex (j : Nat) : Nat := 4 * (j / 3) + j % 3

/-- Loop invariant of `reduceRgbaToRgb` against the original buffer `b`. -/
def RgbInv (b : Bytes) (c : RgbCursor) : Prop :=
  c.mem.length = b.length ∧
  (∀ j, j < c.buf → c.mem[j]? = b[srcIndex j]?) ∧
  (∀ j, c.buf ≤ j → c.mem[j]? = b[j]?)

/-! ## The coordinator -/

/-- What one `processBufferItem` call did with its item. -/
inductive Processed where
  | locked (item : BufferItem)
  | lockFailed (item : BufferItem) (res : Int)
  | noGraphicBuffer (item : BufferItem)
deriving DecidableEq

/-- The item a `processBufferItem` call was given. -/
def Processed.item : Processed → BufferItem
  | .locked item => item
  | .lockFailed item _ => item
  | .noGraphicBuffer item => item

/-- Calls the coordinator makes, in the order it makes them. -/
inductive Event where
  | pinSelectedBuffer (filter : TimestampFinder) (res : Option BufferItem)
  | processBufferItem (log : Processed)
deriving DecidableEq

/-- Items handed to `processBufferItem`, oldest first. -/
def processedItems (trace : List Event) : List BufferItem :=
  trace.filterMap fun e =>
    match e with
    | .processBufferItem log => some log.item
    | .pinSelectedBuffer _ _ => none

/-- Number of `pinSelectedBuffer` calls recorded in a trace. -/
def pinCalls (trace : List Event) : Nat :=
  trace.countP fun e =>
    match e with
    | .pinSelectedBuffer _ _ => true
    | .processBufferItem _ => false

/-- The data members of `VDFrameOutput`.  `mRingBufferConsumer` is `none` for
a NULL `sp<RingBufferConsumer>` and otherwise holds the pool object, whose
state has type `σ`. -/
structure VDFrameOutput (σ : Type) where
  mFrameAvailable : Bool
  mRingBufferConsumer : Option σ
  mContainerId : Int
deriving DecidableEq

/-- Answer of `mEventCond.waitRelative`: its return value `cc`, and whether
`onFrameAvailable` ran on another thread while the wait had released the mutex. -/
structure WaitResult where
  cc : Int
  signalled : Bool
deriving DecidableEq

/-- The coordinator object, the file-static `timestampFinder`, and the calls
made so far. -/
structure Process (σ : Type) where
  vd : VDFrameOutput σ
  timestampFinder : TimestampFinder
  trace : List Event
deriving DecidableEq

/-- How a `copyFrame` run ends: it returns a status, it dereferences a NULL
`mRingBufferConsumer`, or it is still in its loop when the step budget is spent. -/
inductive Outcome where
  | returned (status : Int)
  | nullDeref
  | running
deriving DecidableEq

/-- Result of the mutex-protected block of `copyFrame`: an early `return`, or
fall-through to the drain loop. -/
inductive Locked (σ : Type) where
  | ret (status : Int) (vd : VDFrameOutput σ)
  | frame (vd : VDFrameOutput σ)

namespace VDFrameOutput

/-- `VDFrameOutput::onFrameAvailable`: set the flag (and signal the condition). -/
def onFrameAvailable {σ : Type} (vd : VDFrameOutput σ) : VDFrameOutput σ :=
  { vd with mFrameAvailable := true }

/-- The constructor `VDFrameOutput(containerId)`: flag false, pool reference NULL. -/
def init {σ : Type} (containerId : Int) : VDFrameOutput σ :=
  { mFrameAvailable := false, mRingBufferConsumer := none, mContainerId := containerId }

/-- `VDFrameOutput::reset`: clear the pool reference when it is not NULL. -/
def reset {σ : Type} (vd : VDFrameOutput σ) : VDFrameOutput σ :=
  match vd.mRingBufferConsumer with
  | some _ => { vd with mRingBufferConsumer := none }
  | none => vd

/-- `VDFrameOutput::processBufferItem`; `lock item` is the status returned by
`item.mGraphicBuffer->lock`. -/
def processBufferItem (c : StatusCodes) (lock : BufferItem → Int) (item : BufferItem) :
    Processed :=
  match item.mGraphicBuffer with
  | some _ =>
    let res := lock item
    if res = c.OK then .locked item else .lockFailed item res
  | none => .noGraphicBuffer item

/-- Second test of `mFrameAvailable` in `copyFrame` and the clearing of the flag. -/
def testAndClear {σ : Type} (c : StatusCodes) (vd : VDFrameOutput σ) : Locked σ :=
  if !vd.mFrameAvailable then .ret c.ETIMEDOUT vd
  else .frame { vd with mFrameAvailable := false }

/-- The block of `copyFrame` that runs under `mMutex`. -/
def copyFrameLocked {σ : Type} (c : StatusCodes) (waitRelative : Int → WaitResult)
    (timeoutUsec : Int) (vd : VDFrameOutput σ) : Locked σ :=
  if !vd.mFrameAvailable then
    let timeoutNsec := timeoutUsec * 1000
    let w := waitRelative timeoutNsec
    let vd1 := if w.signalled then onFrameAvailable vd else vd
    if w.cc = -c.ETIMEDOUT then .ret c.ETIMEDOUT vd1
    else if w.cc ≠ 0 then .ret w.cc vd1
    else testAndClear c vd1
  else testAndClear c vd

/-- The `while(true)` loop of `copyFrame` with the `return NO_ERROR` after it.
`pin pool filter` is `pool->pinSelectedBuffer(filter, false)`: the item it
hands out (if any) and the pool as the next iteration finds it, after the
pinned handle of this iteration went out of scope.  The first argument bounds
the number of iterations. -/
def drainLoop {σ : Type} (c : StatusCodes)
    (pin : σ → TimestampFinder → Option BufferItem × σ) (lock : BufferItem → Int) :
    Nat → Process σ → Outcome × Process σ
  | 0, p => (.running, p)
  | fuel + 1, p =>
    match p.vd.mRingBufferConsumer with
    | none => (.nullDeref, p)
    | some pool =>
      match pin pool p.timestampFinder with
      | (some item, pool1) =>
        drainLoop c pin lock fuel
          { vd := { p.vd with mRingBufferConsumer := some pool1 }
            timestampFinder := { p.timestampFinder with mTimestamp := item.mTimestamp }
            trace := p.trace ++ [.pinSelectedBuffer p.timestampFinder (some item),
                                 .processBufferItem (processBufferItem c lock item)] }
      | (none, pool1) =>
        (.returned c.NO_ERROR,
          { p with vd := { p.vd with mRingBufferConsumer := some pool1 }
                   trace := p.trace ++ [.pinSelectedBuffer p.timestampFinder none] })

/-- `VDFrameOutput::copyFrame(timeoutUsec)`. -/
def copyFrame {σ : Type} (c : StatusCodes)
    (pin : σ → TimestampFinder → Option BufferItem × σ) (lock : BufferItem → Int)
    (waitRelative : Int → WaitResult) (fuel : Nat) (timeoutUsec : Int) (p : Process σ) :
    Outcome × Process σ :=
  match copyFrameLocked c waitRelative timeoutUsec p.vd with
  | .ret status vd => (.returned status, { p with vd := vd })
  | .frame vd => drainLoop c pin lock fuel { p with vd := vd }

end VDFrameOutput

/-! ## The buffer pool -/

/-- Modelled from the spec: `RingBufferConsumer::pinSelectedBuffer` is declared in
`gui/RingBufferConsumer.h`, which is not among the sources.  Spec §4.1: the
current best starts as null, each item in arrival order is the candidate of
`comparator(candidate, currentBest)`, "select first" makes the candidate the
new best, "select second" keeps the current best, and "neither" leaves none. -/
def pinSelectedBuffer (filter : TimestampFinder) (pool : List BufferItem) :
    Option BufferItem :=
  pool.foldl
    (fun best cand =>
      let r := filter.compare (some cand.info) (best.map BufferItem.info)
      if r = TimestampFinder.SELECT_I1 then some cand
      else if r = TimestampFinder.SELECT_I2 then best
      else none)
    none

/-- Modelled from the spec: the same reduction as `pinSelectedBuffer`, with the
comparator called as `comparator(currentBest, candidate)`, the other way of
reading "each candidate is compared against the current best". -/
def pinSelectedBufferBestFirst (filter : TimestampFinder) (pool : List BufferItem) :
    Option BufferItem :=
  pool.foldl
    (fun best cand =>
      let r := filter.compare (best.map BufferItem.info) (some cand.info)
      if r = TimestampFinder.SELECT_I1 then best
      else if r = TimestampFinder.SELECT_I2 then some cand
      else none)
    none

/-- A pool whose contents stay the same during a `copyFrame` call, scanned by `scan`. -/
def staticPool (scan : TimestampFinder → List BufferItem → Option BufferItem) :
    List BufferItem → TimestampFinder → Option BufferItem × List BufferItem :=
  fun pool filter => (scan filter pool, pool)

/-- Items of the pool whose timestamp is strictly above the baseline. -/
def qualifying (filter : TimestampFinder) (pool : List BufferItem) : List BufferItem :=
  pool.filter fun item => decide (filter.mTimestamp < item.mTimestamp)

/-! ## Sequences of `copyFrame` calls -/

/-- What surrounds one `copyFrame` call: what the producer side did to the pool
and whether the callback ran since the previous call, the answer of the timed
wait, the timeout, and the iteration budget. -/
structure Call (σ : Type) where
  arrive : σ → σ
  notified : Bool
  waitRelative : Int → WaitResult
  timeoutUsec : Int
  fuel : Nat

/-- What happened since the previous call, as seen at entry of the next one. -/
def Call.enter {σ : Type} (k : Call σ) (p : Process σ) : Process σ :=
  let vd0 := { p.vd with mRingBufferConsumer := p.vd.mRingBufferConsumer.map k.arrive }
  { p with vd := if k.notified then VDFrameOutput.onFrameAvailable vd0 else vd0 }

/-- Successive `copyFrame` calls on one coordinator.  A call that does not
return ends the sequence. -/
def runCalls {σ : Type} (c : StatusCodes)
    (pin : σ → TimestampFinder → Option BufferItem × σ) (lock : BufferItem → Int) :
    List (Call σ) → Process σ → Process σ
  | [], p => p
  | k :: ks, p =>
    match VDFrameOutput.copyFrame c pin lock k.waitRelative k.fuel k.timeoutUsec
        (k.enter p) with
    | (.returned _, p1) => runCalls c pin lock ks p1
    | (_, p1) => p1

/-- A fresh process: the comparator baseline is the static initial value 0. -/
def Process.start {σ : Type} (vd : VDFrameOutput σ) : Process σ :=
  { vd := vd, timestampFinder := timestampFinder0, trace := [] }

/-! ## Predicates used in the statements -/

/-- The availability flag is true when `copyFrame` tests it: at entry, or after
a wait that returned 0 and during which the callback ran. -/
def SignalObserved {σ : Type} (waitRelative : Int → WaitResult) (timeoutUsec : Int)
    (vd : VDFrameOutput σ) : Prop :=
  vd.mFrameAvailable = true ∨
  (vd.mFrameAvailable = false ∧ (waitRelative (timeoutUsec * 1000)).cc = 0 ∧
    (waitRelative (timeoutUsec * 1000)).signalled = true)

/-- Timestamps of the processed items, oldest first. -/
def processedTimestamps (trace : List Event) : List Int :=
  (processedItems trace).map BufferItem.mTimestamp

/-- Invariant of the trace: processed timestamps increase strictly and none
exceeds the comparator baseline. -/
def TraceInv {σ : Type} (p : Process σ) : Prop :=
  List.Pairwise (fun a b => a < b) (processedTimestamps p.trace) ∧
  ∀ t ∈ processedTimestamps p.trace, t ≤ p.timestampFinder.mTimestamp

/-- Two processes that differ at most in what `processBufferItem` logged. -/
def SameSelection {σ : Type} (p q : Process σ) : Prop :=
  p.vd = q.vd ∧ p.timestampFinder = q.timestampFinder ∧
  processedItems p.trace = processedItems q.trace ∧ pinCalls p.trace = pinCalls q.trace

/-! ## The scenario of spec §8 -/

def frame1 : BufferItem := { mSlot := 0, mFrameNumber := 1, mTimestamp := 100, mGraphicBuffer := some 0 }

def frame2 : BufferItem := { mSlot := 1, mFrameNumber := 2, mTimestamp := 150, mGraphicBuffer := some 1 }

def frame3 : BufferItem := { mSlot := 2, mFrameNumber := 3, mTimestamp := 120, mGraphicBuffer := some 2 }

def scenarioPool : List BufferItem := [frame1, frame2, frame3]

/-- A coordinator after `createInputSurface` and one `onFrameAvailable`, over `pool`. -/
def signalledOver (pool : List BufferItem) : Process (List BufferItem) :=
  Process.start { mFrameAvailable := true, mRingBufferConsumer := some pool, mContainerId := 0 }

/-- A timed wait that times out with no callback. -/
def waitTimesOut (c : StatusCodes) : Int → WaitResult :=
  fun _ => { cc := -c.ETIMEDOUT, signalled := false }

/-- A coordinator after `createInputSurface` over `pool`, no callback yet. -/
def idleOver (pool : List BufferItem) : Process (List BufferItem) :=
  Process.start { mFrameAvailable := false, mRingBufferConsumer := some pool, mContainerId := 0 }

def frame4 : BufferItem := { mSlot := 3, mFrameNumber := 4, mTimestamp := 200, mGraphicBuffer := none }

/-- Every lock fails with `-EINVAL`. -/
def lockFails : BufferItem → Int := fun _ => -22

/-- Two calls: the callback ran before each, and frame 4 arrived in between. -/
def scenarioCalls (c : StatusCodes) : List (Call (List BufferItem)) :=
  [ { arrive := fun pool => pool, notified := true,
      waitRelative := waitTimesOut c, timeoutUsec := 0, fuel := 8 },
    { arrive := fun pool => pool ++ [frame4], notified := true,
      waitRelative := waitTimesOut c, timeoutUsec := 0, fuel := 8 } ]

/-- Every lock succeeds. -/
def lockOk (c : StatusCodes) : BufferItem → Int := fun _ => c.OK

/-! ## Byte helpers -/

theorem copyByte_inv {b : Bytes} {c : RgbCursor} (h : RgbInv b c)
    (hr : c.readPtr = srcIndex c.buf) (hlt : c.readPtr < b.length) :
    ∃ c1, copyByte c = some c1 ∧ c1.buf = c.buf + 1 ∧ c1.readPtr = c.readPtr + 1 ∧
      RgbInv b c1 := by
  obtain ⟨hlen, hdone, hrest⟩ := h
  have hbr : c.buf ≤ c.readPtr := by rw [hr]; unfold srcIndex; omega
  have hload : load c.mem c.readPtr = some b[c.readPtr] := by
    unfold load
    rw [hrest _ hbr]
    exact List.getElem?_eq_getElem hlt
  have hstore : store c.mem c.buf b[c.readPtr] = some (c.mem.set c.buf b[c.readPtr]) := by
    unfold store
    rw [if_pos (by omega)]
  refine ⟨{ mem := c.mem.set c.buf b[c.readPtr], buf := c.buf + 1,
            readPtr := c.readPtr + 1 }, ?_, rfl, rfl, ?_, ?_, ?_⟩
  · unfold copyByte
    rw [hload]
    simp only [hstore]
  · simp [hlen]
  · intro j hj
    by_cases hjb : j = c.buf
    · subst hjb
      simp only [List.getElem?_set, if_true, if_pos (show c.buf < c.mem.length by omega)]
      rw [← hr]
      exact (List.getElem?_eq_getElem hlt).symm
    · have hj2 : j < c.buf := by
        have : j < c.buf + 1 := hj
        omega
      rw [List.getElem?_set_ne (Ne.symm hjb)]
      exact hdone j hj2
  · intro j hj
    have hj1 : c.buf + 1 ≤ j := hj
    rw [List.getElem?_set_ne (by omega)]
    exact hrest j (by omega)

theorem reduceBody_inv {b : Bytes} {c : RgbCursor} (i : Nat) (h : RgbInv b c)
    (hb : c.buf = 3 * i) (hr : c.readPtr = 4 * i) (hlen : 4 * (i + 1) ≤ b.length) :
    ∃ c1, reduceBody c = some c1 ∧ c1.buf = 3 * (i + 1) ∧ c1.readPtr = 4 * (i + 1) ∧
      RgbInv b c1 := by
  obtain ⟨c1, e1, b1, r1, h1⟩ :=
    copyByte_inv h (by rw [hr, hb]; unfold srcIndex; omega) (by omega)
  obtain ⟨c2, e2, b2, r2, h2⟩ :=
    copyByte_inv h1 (by rw [r1, b1, hr, hb]; unfold srcIndex; omega) (by omega)
  obtain ⟨c3, e3, b3, r3, h3⟩ :=
    copyByte_inv h2 (by rw [r2, b2, r1, b1, hr, hb]; unfold srcIndex; omega) (by omega)
  refine ⟨{ c3 with readPtr := c3.readPtr + 1 }, ?_, ?_, ?_, ?_⟩
  · unfold reduceBody
    simp only [e1, e2, e3]
  · show c3.buf = _
    omega
  · show c3.readPtr + 1 = _
    omega
  · exact h3

theorem reduceLoop_inv {b : Bytes} (k : Nat) :
    ∀ (c : RgbCursor) (i : Nat), RgbInv b c → c.buf = 3 * i → c.readPtr = 4 * i →
      4 * (i + k) ≤ b.length →
      ∃ c1, reduceLoop k c = some c1 ∧ c1.buf = 3 * (i + k) ∧ RgbInv b c1 := by
  induction k with
  | zero =>
    intro c i h hb _ _
    exact ⟨c, rfl, by simpa using hb, h⟩
  | succ k ih =>
    intro c i h hb hr hlen
    obtain ⟨c1, e1, b1, r1, h1⟩ := reduceBody_inv i h hb hr (by omega)
    obtain ⟨c2, e2, b2, h2⟩ := ih c1 (i + 1) h1 b1 r1 (by omega)
    refine ⟨c2, ?_, ?_, h2⟩
    · unfold reduceLoop
      simp only [e1, e2]
    · rw [b2]
      omega

/-- C1: for a buffer of at least 4*n bytes, `reduceRgbaToRgb` succeeds and leaves
a buffer of the same length whose byte 3*i+k is the original byte 4*i+k for
every i < n and k < 3, and whose bytes from index 3*n onward are the original
ones. -/
theorem reduceRgbaToRgb_packs_first_three_bytes (b : Bytes) (n : Nat)
    (hlen : 4 * n ≤ b.length) :
    ∃ out, VDFrameOutput.reduceRgbaToRgb b n = some out ∧
      out.length = b.length ∧
      (∀ i k, i < n → k < 3 → out[3 * i + k]? = b[4 * i + k]? ∧ (b[4 * i + k]?).isSome) ∧
      (∀ j, 3 * n ≤ j → out[j]? = b[j]?) := by
  have h0 : RgbInv b { mem := b, buf := 0, readPtr := 0 } :=
    ⟨rfl, fun j hj => absurd hj (Nat.not_lt_zero j), fun _ _ => rfl⟩
  obtain ⟨c, e, hb, hl, hdone, hrest⟩ := reduceLoop_inv n _ 0 h0 rfl rfl (by omega)
  refine ⟨c.mem, ?_, hl, ?_, ?_⟩
  · unfold VDFrameOutput.reduceRgbaToRgb
    simp only [e]
  · intro i k hi hk
    have hs : srcIndex (3 * i + k) = 4 * i + k := by unfold srcIndex; omega
    refine ⟨?_, ?_⟩
    · rw [hdone (3 * i + k) (by omega), hs]
    · rw [List.getElem?_eq_getElem (show 4 * i + k < b.length by omega)]
      rfl
  · intro j hj
    exact hrest j (by omega)

theorem store_of_lt {m : Bytes} {p : Nat} (v : Nat) (h : p < m.length) :
    store m p v = some (m.set p v) := by
  unfold store
  rw [if_pos h]

/-- C2: for a 32-bit value v and a buffer of at least four bytes, `setValueLE`
stores (v / 256^k) mod 256 at index k for k = 0..3, leaves the other bytes
alone, and little-endian decoding of the result gives back v. -/
theorem setValueLE_little_endian (buf : Bytes) (v : Nat) (hv : v < 2 ^ 32)
    (hlen : 4 ≤ buf.length) :
    ∃ out, VDFrameOutput.setValueLE buf v = some out ∧
      out.length = buf.length ∧
      (∀ k, k < 4 → out[k]? = some (v / 256 ^ k % 256)) ∧
      (∀ j, 4 ≤ j → out[j]? = buf[j]?) ∧
      decodeLE out = some v := by
  have e : VDFrameOutput.setValueLE buf v =
      some ((((buf.set 0 (v % 256)).set 1 (v >>> 8 % 256)).set 2
        (v >>> 16 % 256)).set 3 (v >>> 24 % 256)) := by
    unfold VDFrameOutput.setValueLE
    rw [store_of_lt _ (by omega)]
    simp only
    rw [store_of_lt _ (by simp; omega)]
    simp only
    rw [store_of_lt _ (by simp; omega)]
    simp only
    rw [store_of_lt _ (by simp; omega)]
  have l0 : 0 < buf.length := by omega
  have l1 : 1 < buf.length := by omega
  have l2 : 2 < buf.length := by omega
  have l3 : 3 < buf.length := by omega
  refine ⟨_, e, by simp, ?_, ?_, ?_⟩
  · intro k hk
    interval_cases k <;>
      simp [List.getElem?_set, Nat.shiftRight_eq_div_pow, l0, l1, l2, l3]
  · intro j hj
    simp only [List.getElem?_set, List.length_set]
    rw [if_neg (by omega), if_neg (by omega), if_neg (by omega), if_neg (by omega)]
  · unfold decodeLE
    simp [List.getElem?_set, Nat.shiftRight_eq_div_pow, l0, l1, l2, l3]
    omega
theorem reduceRgbaToRgb_packs_first_three_bytes_witness :
    4 * 2 ≤ ([1, 2, 3, 4, 5, 6, 7, 8, 9] : Bytes).length ∧
    ∃ out, VDFrameOutput.reduceRgbaToRgb [1, 2, 3, 4, 5, 6, 7, 8, 9] 2 = some out ∧
      out.length = ([1, 2, 3, 4, 5, 6, 7, 8, 9] : Bytes).length ∧
      (∀ i k, i < 2 → k < 3 →
        out[3 * i + k]? = ([1, 2, 3, 4, 5, 6, 7, 8, 9] : Bytes)[4 * i + k]? ∧
        (([1, 2, 3, 4, 5, 6, 7, 8, 9] : Bytes)[4 * i + k]?).isSome) ∧
      (∀ j, 3 * 2 ≤ j → out[j]? = ([1, 2, 3, 4, 5, 6, 7, 8, 9] : Bytes)[j]?) :=
  ⟨by decide, reduceRgbaToRgb_packs_first_three_bytes [1, 2, 3, 4, 5, 6, 7, 8, 9] 2 (by decide)⟩

theorem setValueLE_little_endian_witness :
    16909060 < 2 ^ 32 ∧ 4 ≤ ([9, 9, 9, 9, 9] : Bytes).length ∧
    ∃ out, VDFrameOutput.setValueLE [9, 9, 9, 9, 9] 16909060 = some out ∧
      out.length = ([9, 9, 9, 9, 9] : Bytes).length ∧
      (∀ k, k < 4 → out[k]? = some (16909060 / 256 ^ k % 256)) ∧
      (∀ j, 4 ≤ j → out[j]? = ([9, 9, 9, 9, 9] : Bytes)[j]?) ∧
      decodeLE out = some 16909060 :=
  ⟨by decide, by decide,
   setValueLE_little_endian [9, 9, 9, 9, 9] 16909060 (by decide) (by decide)⟩

/-! ## Lemmas on the comparator -/

theorem compare_eq_select_i1 {f : TimestampFinder} {i1 i2 : Option BufferInfo}
    (h : f.compare i1 i2 = TimestampFinder.SELECT_I1) :
    ∃ a, i1 = some a ∧ f.mTimestamp < a.mTimestamp := by
  cases i1 <;> cases i2 <;>
    simp [TimestampFinder.compare, TimestampFinder.SELECT_I1, TimestampFinder.SELECT_I2]
      at h ⊢ <;>
    omega

theorem compare_eq_select_i2 {f : TimestampFinder} {i1 i2 : Option BufferInfo}
    (h : f.compare i1 i2 = TimestampFinder.SELECT_I2) :
    ∃ b, i2 = some b ∧ f.mTimestamp < b.mTimestamp := by
  cases i1 <;> cases i2 <;>
    simp [TimestampFinder.compare, TimestampFinder.SELECT_I1, TimestampFinder.SELECT_I2]
      at h ⊢ <;>
    omega

theorem compare_range (f : TimestampFinder) (i1 i2 : Option BufferInfo) :
    f.compare i1 i2 = -1 ∨ f.compare i1 i2 = 0 ∨ f.compare i1 i2 = 1 := by
  cases i1 <;> cases i2 <;>
    simp [TimestampFinder.compare, TimestampFinder.SELECT_I1, TimestampFinder.SELECT_I2] <;>
    omega

theorem designated_iff (f : TimestampFinder) (item : BufferItem) :
    Designated f item ↔ f.mTimestamp < item.mTimestamp := by
  constructor
  · rintro ⟨o, h | h⟩
    · obtain ⟨a, ha, hlt⟩ := compare_eq_select_i1 h
      cases ha
      exact hlt
    · obtain ⟨b, hb, hlt⟩ := compare_eq_select_i2 h
      cases hb
      exact hlt
  · intro h
    refine ⟨none, Or.inl ?_⟩
    have h1 : item.info.mTimestamp > f.mTimestamp := h
    simp [TimestampFinder.compare, h1]

/-! ## Claims on the comparator -/

/-- C3: `TimestampFinder::compare` answers only -1, 0 or +1; when it answers
SELECT_I1 the first argument is present with a timestamp strictly above the
baseline, and when it answers SELECT_I2 the second argument is present with a
timestamp strictly above the baseline. -/
theorem compare_designates_only_above_baseline (f : TimestampFinder)
    (i1 i2 : Option BufferInfo) :
    (f.compare i1 i2 = TimestampFinder.SELECT_I1 →
        ∃ a, i1 = some a ∧ f.mTimestamp < a.mTimestamp) ∧
    (f.compare i1 i2 = TimestampFinder.SELECT_I2 →
        ∃ b, i2 = some b ∧ f.mTimestamp < b.mTimestamp) ∧
    (f.compare i1 i2 = -1 ∨ f.compare i1 i2 = 0 ∨ f.compare i1 i2 = 1) :=
  ⟨compare_eq_select_i1, compare_eq_select_i2, compare_range f i1 i2⟩

/-- C9: with at most one argument present, `compare` returns 0 for two absent
arguments, SELECT_I2 exactly when the lone second argument is strictly above
the baseline, SELECT_I1 exactly when the lone first argument is strictly above
the baseline, and 0 otherwise, in particular for a timestamp equal to the
baseline. -/
theorem compare_at_most_one_present (f : TimestampFinder) (x : BufferInfo) :
    f.compare none none = 0 ∧
    f.compare none (some x) =
      (if f.mTimestamp < x.mTimestamp then TimestampFinder.SELECT_I2 else 0) ∧
    f.compare (some x) none =
      (if f.mTimestamp < x.mTimestamp then TimestampFinder.SELECT_I1 else 0) ∧
    TimestampFinder.SELECT_I1 = -1 ∧ TimestampFinder.SELECT_I2 = 1 ∧
    (TimestampFinder.mk x.mTimestamp).compare none (some x) = 0 ∧
    (TimestampFinder.mk x.mTimestamp).compare (some x) none = 0 := by
  refine ⟨rfl, rfl, rfl, rfl, rfl, ?_, ?_⟩ <;> simp [TimestampFinder.compare]

/-- C10: with both arguments present and the first one strictly above the
baseline, `compare` returns SELECT_I1 (-1) whatever the second timestamp is. -/
theorem compare_both_present_first_above (f : TimestampFinder) (a b : BufferInfo)
    (h : f.mTimestamp < a.mTimestamp) :
    f.compare (some a) (some b) = TimestampFinder.SELECT_I1 ∧
    TimestampFinder.SELECT_I1 = -1 := by
  have h1 : a.mTimestamp > f.mTimestamp := h
  simp [TimestampFinder.compare, h1, TimestampFinder.SELECT_I1]

theorem compare_both_present_first_above_witness :
    (timestampFinder0.mTimestamp < (BufferInfo.mk 1 100).mTimestamp) ∧
    timestampFinder0.compare (some (BufferInfo.mk 1 100)) (some (BufferInfo.mk 2 150)) =
        TimestampFinder.SELECT_I1 ∧
    TimestampFinder.SELECT_I1 = -1 :=
  ⟨by decide, compare_both_present_first_above timestampFinder0 ⟨1, 100⟩ ⟨2, 150⟩ (by decide)⟩

theorem compare_designates_only_above_baseline_witness :
    (timestampFinder0.compare none (some (BufferInfo.mk 2 150)) =
      TimestampFinder.SELECT_I2) ∧
    ∃ b, some (BufferInfo.mk 2 150) = some b ∧ timestampFinder0.mTimestamp < b.mTimestamp :=
  ⟨by decide,
   (compare_designates_only_above_baseline timestampFinder0 none
      (some ⟨2, 150⟩)).2.1 (by decide)⟩

/-! ## Lemmas on traces and the drain loop -/

theorem processedItems_append (a b : List Event) :
    processedItems (a ++ b) = processedItems a ++ processedItems b := by
  simp [processedItems, List.filterMap_append]

theorem processedTimestamps_append (a b : List Event) :
    processedTimestamps (a ++ b) = processedTimestamps a ++ processedTimestamps b := by
  simp [processedTimestamps, processedItems_append]

theorem pinCalls_append (a b : List Event) :
    pinCalls (a ++ b) = pinCalls a + pinCalls b := by
  simp [pinCalls, List.countP_append]

theorem processBufferItem_item (c : StatusCodes) (lock : BufferItem → Int)
    (item : BufferItem) : (VDFrameOutput.processBufferItem c lock item).item = item := by
  unfold VDFrameOutput.processBufferItem
  cases item.mGraphicBuffer with
  | none => rfl
  | some g =>
    simp only
    split <;> rfl

section Drain

variable {σ : Type} (c : StatusCodes) (pin : σ → TimestampFinder → Option BufferItem × σ)
  (lock : BufferItem → Int)

theorem drainLoop_null (fuel : Nat) (p : Process σ) (h : p.vd.mRingBufferConsumer = none) :
    VDFrameOutput.drainLoop c pin lock (fuel + 1) p = (.nullDeref, p) := by
  simp only [VDFrameOutput.drainLoop, h]

theorem drainLoop_none (fuel : Nat) (p : Process σ) (pool pool1 : σ)
    (h : p.vd.mRingBufferConsumer = some pool)
    (hp : pin pool p.timestampFinder = (none, pool1)) :
    VDFrameOutput.drainLoop c pin lock (fuel + 1) p =
      (.returned c.NO_ERROR,
        { p with vd := { p.vd with mRingBufferConsumer := some pool1 }
                 trace := p.trace ++ [.pinSelectedBuffer p.timestampFinder none] }) := by
  simp only [VDFrameOutput.drainLoop, h, hp]

theorem drainLoop_some (fuel : Nat) (p : Process σ) (pool pool1 : σ) (item : BufferItem)
    (h : p.vd.mRingBufferConsumer = some pool)
    (hp : pin pool p.timestampFinder = (some item, pool1)) :
    VDFrameOutput.drainLoop c pin lock (fuel + 1) p =
      VDFrameOutput.drainLoop c pin lock fuel
        { vd := { p.vd with mRingBufferConsumer := some pool1 }
          timestampFinder := { p.timestampFinder with mTimestamp := item.mTimestamp }
          trace := p.trace ++ [.pinSelectedBuffer p.timestampFinder (some item),
            .processBufferItem (VDFrameOutput.processBufferItem c lock item)] } := by
  simp only [VDFrameOutput.drainLoop, h, hp]

/-- Case analysis of one iteration of the drain loop. -/
theorem drainLoop_cases (p : Process σ) :
    (p.vd.mRingBufferConsumer = none) ∨
    (∃ pool pool1, p.vd.mRingBufferConsumer = some pool ∧
      pin pool p.timestampFinder = (none, pool1)) ∨
    (∃ pool pool1 item, p.vd.mRingBufferConsumer = some pool ∧
      pin pool p.timestampFinder = (some item, pool1)) := by
  cases h : p.vd.mRingBufferConsumer with
  | none => exact Or.inl rfl
  | some pool =>
    rcases hp : pin pool p.timestampFinder with ⟨_ | item, pool1⟩
    · exact Or.inr (Or.inl ⟨pool, pool1, rfl, hp⟩)
    · exact Or.inr (Or.inr ⟨pool, pool1, item, rfl, hp⟩)

/-- The drain loop touches neither the availability flag nor the container id. -/
theorem drainLoop_keeps_flag (fuel : Nat) (p : Process σ) :
    (VDFrameOutput.drainLoop c pin lock fuel p).2.vd.mFrameAvailable = p.vd.mFrameAvailable ∧
    (VDFrameOutput.drainLoop c pin lock fuel p).2.vd.mContainerId = p.vd.mContainerId := by
  induction fuel generalizing p with
  | zero => exact ⟨rfl, rfl⟩
  | succ fuel ih =>
    rcases drainLoop_cases pin p with h | ⟨pool, pool1, h, hp⟩ | ⟨pool, pool1, item, h, hp⟩
    · rw [drainLoop_null c pin lock fuel p h]
      exact ⟨rfl, rfl⟩
    · rw [drainLoop_none c pin lock fuel p pool pool1 h hp]
      exact ⟨rfl, rfl⟩
    · rw [drainLoop_some c pin lock fuel p pool pool1 item h hp]
      exact ih _

/-- The drain loop ends with `NO_ERROR`, a NULL dereference, or an exhausted budget. -/
theorem drainLoop_outcome (fuel : Nat) (p : Process σ) :
    (VDFrameOutput.drainLoop c pin lock fuel p).1 = .returned c.NO_ERROR ∨
    (VDFrameOutput.drainLoop c pin lock fuel p).1 = .nullDeref ∨
    (VDFrameOutput.drainLoop c pin lock fuel p).1 = .running := by
  induction fuel generalizing p with
  | zero => exact Or.inr (Or.inr rfl)
  | succ fuel ih =>
    rcases drainLoop_cases pin p with h | ⟨pool, pool1, h, hp⟩ | ⟨pool, pool1, item, h, hp⟩
    · rw [drainLoop_null c pin lock fuel p h]
      exact Or.inr (Or.inl rfl)
    · rw [drainLoop_none c pin lock fuel p pool pool1 h hp]
      exact Or.inl rfl
    · rw [drainLoop_some c pin lock fuel p pool pool1 item h hp]
      exact ih _

/-- The drain loop keeps the trace invariant when the pool hands out only
designated items. -/
theorem drainLoop_traceInv
    (hpin : ∀ pool f item pool1, pin pool f = (some item, pool1) → Designated f item)
    (fuel : Nat) (p : Process σ) (hinv : TraceInv p) :
    TraceInv (VDFrameOutput.drainLoop c pin lock fuel p).2 := by
  induction fuel generalizing p with
  | zero => exact hinv
  | succ fuel ih =>
    rcases drainLoop_cases pin p with h | ⟨pool, pool1, h, hp⟩ | ⟨pool, pool1, item, h, hp⟩
    · rw [drainLoop_null c pin lock fuel p h]
      exact hinv
    · rw [drainLoop_none c pin lock fuel p pool pool1 h hp]
      obtain ⟨h1, h2⟩ := hinv
      refine ⟨?_, ?_⟩
      · simpa [processedTimestamps, processedItems] using h1
      · simpa [processedTimestamps, processedItems] using h2
    · rw [drainLoop_some c pin lock fuel p pool pool1 item h hp]
      apply ih
      have hlt : p.timestampFinder.mTimestamp < item.mTimestamp :=
        (designated_iff _ _).1 (hpin pool _ item pool1 hp)
      obtain ⟨h1, h2⟩ := hinv
      have hts : processedTimestamps
          (p.trace ++ [.pinSelectedBuffer p.timestampFinder (some item),
            .processBufferItem (VDFrameOutput.processBufferItem c lock item)]) =
          processedTimestamps p.trace ++ [item.mTimestamp] := by
        rw [processedTimestamps_append]
        simp [processedTimestamps, processedItems, processBufferItem_item]
      refine ⟨?_, ?_⟩
      · show List.Pairwise _ (processedTimestamps _)
        rw [hts, List.pairwise_append]
        refine ⟨h1, List.pairwise_singleton _ _, ?_⟩
        intro a ha b hb
        have hb1 : b = item.mTimestamp := by simpa using hb
        have := h2 a ha
        omega
      · intro t ht
        have ht1 : t ∈ processedTimestamps p.trace ++ [item.mTimestamp] := by
          rw [← hts]
          exact ht
        show t ≤ item.mTimestamp
        rcases List.mem_append.1 ht1 with ha | hb
        · have := h2 t ha
          omega
        · have hb1 : t = item.mTimestamp := by simpa using hb
          omega

/-- Changing the lock outcomes changes neither the outcome of the drain loop nor
which items it selects and processes. -/
theorem drainLoop_lock_irrelevant (lock2 : BufferItem → Int) (fuel : Nat)
    (p q : Process σ) (hpq : SameSelection p q) :
    (VDFrameOutput.drainLoop c pin lock fuel p).1 =
      (VDFrameOutput.drainLoop c pin lock2 fuel q).1 ∧
    SameSelection (VDFrameOutput.drainLoop c pin lock fuel p).2
      (VDFrameOutput.drainLoop c pin lock2 fuel q).2 := by
  induction fuel generalizing p q with
  | zero => exact ⟨rfl, hpq⟩
  | succ fuel ih =>
    obtain ⟨hvd, htf, hitems, hpins⟩ := hpq
    rcases drainLoop_cases pin p with h | ⟨pool, pool1, h, hp⟩ | ⟨pool, pool1, item, h, hp⟩
    · rw [drainLoop_null c pin lock fuel p h, drainLoop_null c pin lock2 fuel q (hvd ▸ h)]
      exact ⟨rfl, hvd, htf, hitems, hpins⟩
    · rw [drainLoop_none c pin lock fuel p pool pool1 h hp,
        drainLoop_none c pin lock2 fuel q pool pool1 (hvd ▸ h) (htf ▸ hp)]
      refine ⟨rfl, ?_, htf, ?_, ?_⟩
      · show ({ p.vd with mRingBufferConsumer := some pool1 } : VDFrameOutput σ) = _
        rw [hvd]
      · show processedItems (p.trace ++ _) = processedItems (q.trace ++ _)
        rw [processedItems_append, processedItems_append, hitems]
        rfl
      · show pinCalls (p.trace ++ _) = pinCalls (q.trace ++ _)
        rw [pinCalls_append, pinCalls_append, hpins]
        rfl
    · rw [drainLoop_some c pin lock fuel p pool pool1 item h hp,
        drainLoop_some c pin lock2 fuel q pool pool1 item (hvd ▸ h) (htf ▸ hp)]
      apply ih
      refine ⟨?_, ?_, ?_, ?_⟩
      · show ({ p.vd with mRingBufferConsumer := some pool1 } : VDFrameOutput σ) = _
        rw [hvd]
      · show ({ p.timestampFinder with mTimestamp := item.mTimestamp } : TimestampFinder) = _
        rw [htf]
      · show processedItems (p.trace ++ _) = processedItems (q.trace ++ _)
        rw [processedItems_append, processedItems_append, hitems]
        simp [processedItems, processBufferItem_item]
      · show pinCalls (p.trace ++ _) = pinCalls (q.trace ++ _)
        rw [pinCalls_append, pinCalls_append, hpins]
        rfl

/-- A drain loop that has ended gives the same result under any larger budget. -/
theorem drainLoop_fuel_mono (fuel : Nat) (p : Process σ)
    (hdone : (VDFrameOutput.drainLoop c pin lock fuel p).1 ≠ .running) (fuel2 : Nat)
    (hle : fuel ≤ fuel2) :
    VDFrameOutput.drainLoop c pin lock fuel2 p = VDFrameOutput.drainLoop c pin lock fuel p := by
  induction fuel generalizing p fuel2 with
  | zero => exact absurd rfl hdone
  | succ fuel ih =>
    obtain ⟨k, rfl⟩ : ∃ k, fuel2 = k + 1 := ⟨fuel2 - 1, by omega⟩
    rcases drainLoop_cases pin p with h | ⟨pool, pool1, h, hp⟩ | ⟨pool, pool1, item, h, hp⟩
    · rw [drainLoop_null c pin lock fuel p h, drainLoop_null c pin lock k p h]
    · rw [drainLoop_none c pin lock fuel p pool pool1 h hp,
        drainLoop_none c pin lock k p pool pool1 h hp]
    · rw [drainLoop_some c pin lock fuel p pool pool1 item h hp] at hdone ⊢
      rw [drainLoop_some c pin lock k p pool pool1 item h hp]
      exact ih _ hdone k (by omega)

/-- When the drain loop returns, it has made one `pinSelectedBuffer` call per
processed item and one more, the call that found nothing. -/
theorem drainLoop_pinCalls (fuel : Nat) (p : Process σ)
    (hret : (VDFrameOutput.drainLoop c pin lock fuel p).1 = .returned c.NO_ERROR) :
    pinCalls (VDFrameOutput.drainLoop c pin lock fuel p).2.trace +
        (processedItems p.trace).length =
      pinCalls p.trace +
        (processedItems (VDFrameOutput.drainLoop c pin lock fuel p).2.trace).length + 1 := by
  induction fuel generalizing p with
  | zero => cases hret
  | succ fuel ih =>
    rcases drainLoop_cases pin p with h | ⟨pool, pool1, h, hp⟩ | ⟨pool, pool1, item, h, hp⟩
    · rw [drainLoop_null c pin lock fuel p h] at hret
      cases hret
    · rw [drainLoop_none c pin lock fuel p pool pool1 h hp]
      show pinCalls (p.trace ++ _) + _ = _ + (processedItems (p.trace ++ _)).length + 1
      rw [pinCalls_append, processedItems_append]
      simp [pinCalls, processedItems]
      omega
    · rw [drainLoop_some c pin lock fuel p pool pool1 item h hp] at hret ⊢
      have h1 := ih _ hret
      have h2 : pinCalls (p.trace ++ [.pinSelectedBuffer p.timestampFinder (some item),
          .processBufferItem (VDFrameOutput.processBufferItem c lock item)]) =
          pinCalls p.trace + 1 := by
        rw [pinCalls_append]
        simp [pinCalls]
      have h3 : (processedItems (p.trace ++ [.pinSelectedBuffer p.timestampFinder (some item),
          .processBufferItem (VDFrameOutput.processBufferItem c lock item)])).length =
          (processedItems p.trace).length + 1 := by
        rw [processedItems_append]
        simp [processedItems]
      dsimp only at h1 ⊢
      rw [h2, h3] at h1
      omega

end Drain

/-! ## Lemmas on a pool that does not change during the call -/

theorem qualifying_length_le (t1 t2 : Int) (h : t1 ≤ t2) (pool : List BufferItem) :
    (qualifying ⟨t2⟩ pool).length ≤ (qualifying ⟨t1⟩ pool).length := by
  unfold qualifying
  rw [← List.countP_eq_length_filter, ← List.countP_eq_length_filter]
  apply List.countP_mono_left
  intro x _ hx
  simp only [decide_eq_true_eq] at hx ⊢
  omega

/-- Raising the baseline to the timestamp of a qualifying item of the pool
strictly shrinks the set of qualifying items. -/
theorem qualifying_length_lt (f : TimestampFinder) (item : BufferItem)
    (pool : List BufferItem) (hmem : item ∈ pool) (hlt : f.mTimestamp < item.mTimestamp) :
    (qualifying ⟨item.mTimestamp⟩ pool).length < (qualifying f pool).length := by
  induction pool with
  | nil => cases hmem
  | cons x xs ih =>
    have hle := qualifying_length_le f.mTimestamp item.mTimestamp (le_of_lt hlt) xs
    have hcons1 : qualifying ⟨item.mTimestamp⟩ (x :: xs) =
        if item.mTimestamp < x.mTimestamp then x :: qualifying ⟨item.mTimestamp⟩ xs
        else qualifying ⟨item.mTimestamp⟩ xs := by
      simp [qualifying, List.filter_cons]
    have hcons2 : qualifying f (x :: xs) =
        if f.mTimestamp < x.mTimestamp then x :: qualifying f xs
        else qualifying f xs := by
      simp [qualifying, List.filter_cons]
    rw [hcons1, hcons2]
    rcases List.mem_cons.1 hmem with rfl | hxs
    · rw [if_neg (lt_irrefl _), if_pos hlt]
      simp only [List.length_cons]
      have hf : (⟨f.mTimestamp⟩ : TimestampFinder) = f := rfl
      rw [hf] at hle
      omega
    · have := ih hxs
      have hf : (⟨f.mTimestamp⟩ : TimestampFinder) = f := rfl
      rw [hf] at hle
      split <;> split <;> (try simp only [List.length_cons]) <;> omega

section StaticPool

variable (c : StatusCodes) (scan : TimestampFinder → List BufferItem → Option BufferItem)
  (lock : BufferItem → Int)

/-- Over an unchanging pool whose scan hands out only items of the pool that
the comparator designates, the drain loop returns `NO_ERROR` once the budget
exceeds the number of qualifying items, and it processes at most that many items. -/
theorem drainLoop_static_returns
    (hscan : ∀ f pool item, scan f pool = some item → item ∈ pool ∧ Designated f item)
    (fuel : Nat) (p : Process (List BufferItem)) (pool : List BufferItem)
    (hpool : p.vd.mRingBufferConsumer = some pool)
    (hfuel : (qualifying p.timestampFinder pool).length < fuel) :
    (VDFrameOutput.drainLoop c (staticPool scan) lock fuel p).1 = .returned c.NO_ERROR ∧
    (processedItems (VDFrameOutput.drainLoop c (staticPool scan) lock fuel p).2.trace).length ≤
      (processedItems p.trace).length + (qualifying p.timestampFinder pool).length := by
  induction fuel generalizing p with
  | zero => omega
  | succ fuel ih =>
    cases hs : scan p.timestampFinder pool with
    | none =>
      rw [drainLoop_none c (staticPool scan) lock fuel p pool pool hpool
        (by simp [staticPool, hs])]
      refine ⟨rfl, ?_⟩
      show (processedItems (p.trace ++ _)).length ≤ _
      rw [processedItems_append]
      simp [processedItems]
    | some item =>
      rw [drainLoop_some c (staticPool scan) lock fuel p pool pool item hpool
        (by simp [staticPool, hs])]
      obtain ⟨hmem, hdes⟩ := hscan _ _ _ hs
      have hlt := qualifying_length_lt p.timestampFinder item pool hmem
        ((designated_iff _ _).1 hdes)
      obtain ⟨h1, h2⟩ := ih
        { vd := { p.vd with mRingBufferConsumer := some pool }
          timestampFinder := { p.timestampFinder with mTimestamp := item.mTimestamp }
          trace := p.trace ++ [.pinSelectedBuffer p.timestampFinder (some item),
            .processBufferItem (VDFrameOutput.processBufferItem c lock item)] }
        rfl (by show (qualifying ⟨item.mTimestamp⟩ pool).length < fuel; omega)
      refine ⟨h1, le_trans h2 ?_⟩
      show (processedItems (p.trace ++ _)).length + (qualifying ⟨item.mTimestamp⟩ pool).length ≤ _
      rw [processedItems_append]
      simp [processedItems]
      omega

end StaticPool

/-! ## Lemmas on `copyFrame` -/

section CopyFrame

variable {σ : Type} (c : StatusCodes) (pin : σ → TimestampFinder → Option BufferItem × σ)
  (lock : BufferItem → Int) (waitRelative : Int → WaitResult)

/-- When the flag is observed true, the locked block clears it and falls through. -/
theorem copyFrameLocked_of_observed (hE : c.ETIMEDOUT ≠ 0) (timeoutUsec : Int)
    (vd : VDFrameOutput σ) (hobs : SignalObserved waitRelative timeoutUsec vd) :
    VDFrameOutput.copyFrameLocked c waitRelative timeoutUsec vd =
      .frame { vd with mFrameAvailable := false } := by
  rcases hobs with h | ⟨h, hcc, hsig⟩
  · simp [VDFrameOutput.copyFrameLocked, VDFrameOutput.testAndClear, h]
  · have hne : (0 : Int) ≠ -c.ETIMEDOUT := by omega
    simp [VDFrameOutput.copyFrameLocked, VDFrameOutput.testAndClear,
      VDFrameOutput.onFrameAvailable, h, hcc, hsig, hne]

/-- When the flag is not observed true, the locked block returns `ETIMEDOUT` or
the non-zero value of the wait, and writes nothing itself. -/
theorem copyFrameLocked_of_not_observed (timeoutUsec : Int)
    (vd : VDFrameOutput σ) (hobs : ¬ SignalObserved waitRelative timeoutUsec vd) :
    ∃ status, (status = c.ETIMEDOUT ∨ status ≠ 0) ∧
      VDFrameOutput.copyFrameLocked c waitRelative timeoutUsec vd =
        .ret status (if (waitRelative (timeoutUsec * 1000)).signalled
          then VDFrameOutput.onFrameAvailable vd else vd) := by
  unfold SignalObserved at hobs
  have hflag : vd.mFrameAvailable = false := by
    cases h : vd.mFrameAvailable with
    | false => rfl
    | true => exact absurd (Or.inl h) hobs
  have hw : ¬ ((waitRelative (timeoutUsec * 1000)).cc = 0 ∧
      (waitRelative (timeoutUsec * 1000)).signalled = true) := fun h =>
    hobs (Or.inr ⟨hflag, h⟩)
  by_cases h1 : (waitRelative (timeoutUsec * 1000)).cc = -c.ETIMEDOUT
  · exact ⟨c.ETIMEDOUT, Or.inl rfl, by
      simp [VDFrameOutput.copyFrameLocked, hflag, h1]⟩
  · by_cases h2 : (waitRelative (timeoutUsec * 1000)).cc = 0
    · have hsig : (waitRelative (timeoutUsec * 1000)).signalled = false := by
        cases h : (waitRelative (timeoutUsec * 1000)).signalled with
        | false => rfl
        | true => exact absurd ⟨h2, h⟩ hw
      exact ⟨c.ETIMEDOUT, Or.inl rfl, by
        simp [VDFrameOutput.copyFrameLocked, VDFrameOutput.testAndClear, hflag, h1, h2, hsig]⟩
    · exact ⟨(waitRelative (timeoutUsec * 1000)).cc, Or.inr h2, by
        simp [VDFrameOutput.copyFrameLocked, hflag, h1, h2]⟩

theorem copyFrame_of_observed (hE : c.ETIMEDOUT ≠ 0) (fuel : Nat) (timeoutUsec : Int)
    (p : Process σ) (hobs : SignalObserved waitRelative timeoutUsec p.vd) :
    VDFrameOutput.copyFrame c pin lock waitRelative fuel timeoutUsec p =
      VDFrameOutput.drainLoop c pin lock fuel
        { p with vd := { p.vd with mFrameAvailable := false } } := by
  unfold VDFrameOutput.copyFrame
  rw [copyFrameLocked_of_observed c waitRelative hE timeoutUsec p.vd hobs]

theorem copyFrame_of_not_observed (fuel : Nat) (timeoutUsec : Int)
    (p : Process σ) (hobs : ¬ SignalObserved waitRelative timeoutUsec p.vd) :
    ∃ status, (status = c.ETIMEDOUT ∨ status ≠ 0) ∧
      VDFrameOutput.copyFrame c pin lock waitRelative fuel timeoutUsec p =
        (.returned status,
          { p with vd := if (waitRelative (timeoutUsec * 1000)).signalled
              then VDFrameOutput.onFrameAvailable p.vd else p.vd }) := by
  obtain ⟨status, hs, he⟩ :=
    copyFrameLocked_of_not_observed c waitRelative timeoutUsec p.vd hobs
  refine ⟨status, hs, ?_⟩
  unfold VDFrameOutput.copyFrame
  rw [he]

/-- One `copyFrame` call keeps the trace invariant. -/
theorem copyFrame_traceInv
    (hpin : ∀ pool f item pool1, pin pool f = (some item, pool1) → Designated f item)
    (fuel : Nat) (timeoutUsec : Int) (p : Process σ) (hinv : TraceInv p) :
    TraceInv (VDFrameOutput.copyFrame c pin lock waitRelative fuel timeoutUsec p).2 := by
  unfold VDFrameOutput.copyFrame
  cases VDFrameOutput.copyFrameLocked c waitRelative timeoutUsec p.vd with
  | ret status vd => exact hinv
  | frame vd => exact drainLoop_traceInv c pin lock hpin fuel _ hinv

end CopyFrame

/-- Every sequence of `copyFrame` calls keeps the trace invariant. -/
theorem runCalls_traceInv {σ : Type} (c : StatusCodes)
    (pin : σ → TimestampFinder → Option BufferItem × σ) (lock : BufferItem → Int)
    (hpin : ∀ pool f item pool1, pin pool f = (some item, pool1) → Designated f item)
    (calls : List (Call σ)) (p : Process σ) (hinv : TraceInv p) :
    TraceInv (runCalls c pin lock calls p) := by
  induction calls generalizing p with
  | nil => exact hinv
  | cons k ks ih =>
    unfold runCalls
    have hstep := copyFrame_traceInv c pin lock k.waitRelative hpin k.fuel k.timeoutUsec
      (k.enter p) hinv
    revert hstep
    generalize VDFrameOutput.copyFrame c pin lock k.waitRelative k.fuel k.timeoutUsec _ = r
    intro hstep
    rcases r with ⟨_ | _ | _, p1⟩
    · exact ih p1 hstep
    · exact hstep
    · exact hstep

theorem traceInv_start {σ : Type} (vd : VDFrameOutput σ) : TraceInv (Process.start vd) := by
  refine ⟨?_, ?_⟩
  · simp [Process.start, processedTimestamps, processedItems]
  · intro t ht
    simp [Process.start, processedTimestamps, processedItems] at ht

/-! ## Lemmas on the pool scan -/

/-- With the candidate as first argument the comparator ignores the current
best: the candidate wins exactly when it is strictly above the baseline, and
otherwise no best is left. -/
theorem pinSelectedBuffer_snoc (f : TimestampFinder) (ys : List BufferItem)
    (a : BufferItem) :
    pinSelectedBuffer f (ys ++ [a]) = if f.mTimestamp < a.mTimestamp then some a else none := by
  unfold pinSelectedBuffer
  rw [List.foldl_append]
  simp only [List.foldl_cons, List.foldl_nil]
  generalize List.foldl _ none ys = best
  by_cases h : f.mTimestamp < a.mTimestamp
  · have h1 : a.info.mTimestamp > f.mTimestamp := h
    cases best <;> simp [TimestampFinder.compare, h, h1]
  · have h1 : ¬ a.info.mTimestamp > f.mTimestamp := h
    cases best <;>
      simp [TimestampFinder.compare, h, h1, TimestampFinder.SELECT_I1,
        TimestampFinder.SELECT_I2]

theorem pinSelectedBuffer_sound (f : TimestampFinder) (pool : List BufferItem)
    (item : BufferItem) (h : pinSelectedBuffer f pool = some item) :
    item ∈ pool ∧ Designated f item := by
  rcases List.eq_nil_or_concat pool with rfl | ⟨ys, a, rfl⟩
  · simp [pinSelectedBuffer] at h
  · rw [List.concat_eq_append, pinSelectedBuffer_snoc] at h
    by_cases hq : f.mTimestamp < a.mTimestamp
    · rw [if_pos hq] at h
      cases h
      exact ⟨by simp, (designated_iff _ _).2 hq⟩
    · rw [if_neg hq] at h
      cases h

theorem pinSelectedBufferBestFirst_keeps (f : TimestampFinder) (q : BufferItem)
    (hq : f.mTimestamp < q.mTimestamp) (pool : List BufferItem) :
    pool.foldl
      (fun best cand =>
        let r := f.compare (best.map BufferItem.info) (some cand.info)
        if r = TimestampFinder.SELECT_I1 then best
        else if r = TimestampFinder.SELECT_I2 then some cand
        else none)
      (some q) = some q := by
  induction pool with
  | nil => rfl
  | cons x xs ih =>
    have h1 : q.info.mTimestamp > f.mTimestamp := hq
    simp only [List.foldl_cons]
    simp only [TimestampFinder.compare, Option.map_some', h1, if_true]
    exact ih

theorem pinSelectedBufferBestFirst_eq_find (f : TimestampFinder) (pool : List BufferItem) :
    pinSelectedBufferBestFirst f pool =
      pool.find? (fun item => decide (f.mTimestamp < item.mTimestamp)) := by
  unfold pinSelectedBufferBestFirst
  induction pool with
  | nil => rfl
  | cons x xs ih =>
    simp only [List.foldl_cons, List.find?_cons]
    by_cases h : f.mTimestamp < x.mTimestamp
    · have h1 : x.info.mTimestamp > f.mTimestamp := h
      simp only [TimestampFinder.compare, Option.map_none', h1, if_true]
      simp only [TimestampFinder.SELECT_I1, TimestampFinder.SELECT_I2]
      simp only [h, decide_True]
      exact pinSelectedBufferBestFirst_keeps f x h xs
    · have h1 : ¬ x.info.mTimestamp > f.mTimestamp := h
      simp only [TimestampFinder.compare, Option.map_none', h1, if_false]
      simp only [TimestampFinder.SELECT_I1, TimestampFinder.SELECT_I2]
      simp only [h, decide_False]
      exact ih

theorem pinSelectedBufferBestFirst_sound (f : TimestampFinder) (pool : List BufferItem)
    (item : BufferItem) (h : pinSelectedBufferBestFirst f pool = some item) :
    item ∈ pool ∧ Designated f item := by
  rw [pinSelectedBufferBestFirst_eq_find] at h
  refine ⟨List.mem_of_find?_eq_some h, (designated_iff _ _).2 ?_⟩
  have := List.find?_some h
  simpa using this

/-! ## Claims on the coordinator -/

/-- C4: over every sequence of `copyFrame` calls started with baseline 0 and an
empty trace, whatever the pool holds at each call, if `pinSelectedBuffer` hands
out only items that the comparator designates under the current baseline, then
the timestamps of the items handed to `processBufferItem` increase strictly;
in particular no item is processed twice. -/
theorem copyFrame_processes_strictly_increasing {σ : Type} (c : StatusCodes)
    (pin : σ → TimestampFinder → Option BufferItem × σ) (lock : BufferItem → Int)
    (hpin : ∀ pool f item pool1, pin pool f = (some item, pool1) → Designated f item)
    (calls : List (Call σ)) (vd : VDFrameOutput σ) :
    List.Pairwise (fun a b => a < b)
      (processedTimestamps (runCalls c pin lock calls (Process.start vd)).trace) ∧
    (processedItems (runCalls c pin lock calls (Process.start vd)).trace).Nodup := by
  have h := (runCalls_traceInv c pin lock hpin calls _ (traceInv_start vd)).1
  refine ⟨h, ?_⟩
  unfold processedTimestamps at h
  rw [List.pairwise_map] at h
  exact h.imp (fun hab heq => by rw [heq] at hab; exact lt_irrefl _ hab)

/-- C6: when the flag is false at entry and the wait reports `-ETIMEDOUT`, or
returns 0 without the callback having run, `copyFrame` returns `ETIMEDOUT`,
makes no `pinSelectedBuffer` call (the trace is unchanged), leaves the
baseline and the pool reference unchanged, and writes nothing to
`mFrameAvailable`: the flag is what the callback left. -/
theorem copyFrame_timeout_consumes_nothing {σ : Type} (c : StatusCodes)
    (pin : σ → TimestampFinder → Option BufferItem × σ) (lock : BufferItem → Int)
    (waitRelative : Int → WaitResult) (fuel : Nat) (timeoutUsec : Int) (p : Process σ)
    (hflag : p.vd.mFrameAvailable = false)
    (hwait : (waitRelative (timeoutUsec * 1000)).cc = -c.ETIMEDOUT ∨
      ((waitRelative (timeoutUsec * 1000)).cc = 0 ∧
        (waitRelative (timeoutUsec * 1000)).signalled = false)) :
    VDFrameOutput.copyFrame c pin lock waitRelative fuel timeoutUsec p =
      (.returned c.ETIMEDOUT,
        { p with vd := if (waitRelative (timeoutUsec * 1000)).signalled
            then VDFrameOutput.onFrameAvailable p.vd else p.vd }) ∧
    (VDFrameOutput.copyFrame c pin lock waitRelative fuel timeoutUsec p).2.trace = p.trace ∧
    (VDFrameOutput.copyFrame c pin lock waitRelative fuel timeoutUsec p).2.timestampFinder =
      p.timestampFinder ∧
    (VDFrameOutput.copyFrame c pin lock waitRelative fuel timeoutUsec p).2.vd.mRingBufferConsumer
      = p.vd.mRingBufferConsumer ∧
    (VDFrameOutput.copyFrame c pin lock waitRelative fuel timeoutUsec p).2.vd.mFrameAvailable
      = (waitRelative (timeoutUsec * 1000)).signalled := by
  have e : VDFrameOutput.copyFrame c pin lock waitRelative fuel timeoutUsec p =
      (.returned c.ETIMEDOUT,
        { p with vd := if (waitRelative (timeoutUsec * 1000)).signalled
            then VDFrameOutput.onFrameAvailable p.vd else p.vd }) := by
    rcases hwait with h1 | ⟨h2, hsig⟩
    · simp [VDFrameOutput.copyFrame, VDFrameOutput.copyFrameLocked, hflag, h1]
    · by_cases h1 : (0 : Int) = -c.ETIMEDOUT
      · simp [VDFrameOutput.copyFrame, VDFrameOutput.copyFrameLocked, hflag, h2, h1, hsig]
      · simp [VDFrameOutput.copyFrame, VDFrameOutput.copyFrameLocked,
          VDFrameOutput.testAndClear, hflag, h2, h1, hsig]
  rw [e]
  refine ⟨rfl, rfl, rfl, ?_, ?_⟩
  · cases (waitRelative (timeoutUsec * 1000)).signalled <;> rfl
  · cases hs : (waitRelative (timeoutUsec * 1000)).signalled
    · simpa using hflag
    · rfl

/-- C7: over a pool that does not change during the call and whose scan hands
out only items of the pool that the comparator designates, once `copyFrame`
has observed the availability signal it returns `NO_ERROR` whatever the lock
outcomes are, and it selects and processes the same items in the same order,
with the same number of `pinSelectedBuffer` calls, as when every lock succeeds. -/
theorem copyFrame_lock_failure_never_propagates (c : StatusCodes)
    (scan : TimestampFinder → List BufferItem → Option BufferItem)
    (hscan : ∀ f pool item, scan f pool = some item → item ∈ pool ∧ Designated f item)
    (lock : BufferItem → Int) (waitRelative : Int → WaitResult) (fuel : Nat)
    (timeoutUsec : Int) (p : Process (List BufferItem)) (pool : List BufferItem)
    (hE : c.ETIMEDOUT ≠ 0)
    (hpool : p.vd.mRingBufferConsumer = some pool)
    (hobs : SignalObserved waitRelative timeoutUsec p.vd)
    (hfuel : (qualifying p.timestampFinder pool).length < fuel) :
    (VDFrameOutput.copyFrame c (staticPool scan) lock waitRelative fuel timeoutUsec p).1 =
      .returned c.NO_ERROR ∧
    processedItems
        (VDFrameOutput.copyFrame c (staticPool scan) lock waitRelative fuel timeoutUsec p).2.trace =
      processedItems
        (VDFrameOutput.copyFrame c (staticPool scan) (lockOk c) waitRelative fuel
          timeoutUsec p).2.trace ∧
    pinCalls
        (VDFrameOutput.copyFrame c (staticPool scan) lock waitRelative fuel timeoutUsec p).2.trace =
      pinCalls
        (VDFrameOutput.copyFrame c (staticPool scan) (lockOk c) waitRelative fuel
          timeoutUsec p).2.trace := by
  rw [copyFrame_of_observed c (staticPool scan) lock waitRelative hE fuel timeoutUsec p hobs,
    copyFrame_of_observed c (staticPool scan) (lockOk c) waitRelative hE fuel timeoutUsec p hobs]
  have hret := (drainLoop_static_returns c scan lock hscan fuel
    { p with vd := { p.vd with mFrameAvailable := false } } pool hpool hfuel).1
  have hsame := (drainLoop_lock_irrelevant c (staticPool scan) lock (lockOk c) fuel
    { p with vd := { p.vd with mFrameAvailable := false } }
    { p with vd := { p.vd with mFrameAvailable := false } } ⟨rfl, rfl, rfl, rfl⟩).2
  exact ⟨hret, hsame.2.2.1, hsame.2.2.2⟩

/-- C8: when `mFrameAvailable` is true where `copyFrame` tests it (at entry, or
after a wait that returned 0), the locked block clears the flag and the drain
loop starts from the state with the flag false, so every `pinSelectedBuffer`
call comes after the clearing; the flag is false afterwards and the call does
not return `ETIMEDOUT`.  In particular this holds for `copyFrame` run right
after `onFrameAvailable`.  Conversely `copyFrame` returns `NO_ERROR` only when
the flag was observed true. -/
theorem copyFrame_consumes_signal_when_observed {σ : Type} (c : StatusCodes)
    (pin : σ → TimestampFinder → Option BufferItem × σ) (lock : BufferItem → Int)
    (waitRelative : Int → WaitResult) (fuel : Nat) (timeoutUsec : Int) (p : Process σ)
    (hN : c.NO_ERROR = 0) (hE : c.ETIMEDOUT ≠ 0) :
    (SignalObserved waitRelative timeoutUsec p.vd →
      VDFrameOutput.copyFrameLocked c waitRelative timeoutUsec p.vd =
        .frame { p.vd with mFrameAvailable := false } ∧
      VDFrameOutput.copyFrame c pin lock waitRelative fuel timeoutUsec p =
        VDFrameOutput.drainLoop c pin lock fuel
          { p with vd := { p.vd with mFrameAvailable := false } } ∧
      (VDFrameOutput.copyFrame c pin lock waitRelative fuel timeoutUsec p).2.vd.mFrameAvailable
        = false ∧
      (VDFrameOutput.copyFrame c pin lock waitRelative fuel timeoutUsec p).1 ≠
        .returned c.ETIMEDOUT) ∧
    ((VDFrameOutput.copyFrame c pin lock waitRelative fuel timeoutUsec
        { p with vd := VDFrameOutput.onFrameAvailable p.vd }).2.vd.mFrameAvailable = false ∧
      (VDFrameOutput.copyFrame c pin lock waitRelative fuel timeoutUsec
        { p with vd := VDFrameOutput.onFrameAvailable p.vd }).1 ≠ .returned c.ETIMEDOUT) ∧
    ((VDFrameOutput.copyFrame c pin lock waitRelative fuel timeoutUsec p).1 =
        .returned c.NO_ERROR →
      SignalObserved waitRelative timeoutUsec p.vd) := by
  have key : ∀ q : Process σ, SignalObserved waitRelative timeoutUsec q.vd →
      VDFrameOutput.copyFrameLocked c waitRelative timeoutUsec q.vd =
        .frame { q.vd with mFrameAvailable := false } ∧
      VDFrameOutput.copyFrame c pin lock waitRelative fuel timeoutUsec q =
        VDFrameOutput.drainLoop c pin lock fuel
          { q with vd := { q.vd with mFrameAvailable := false } } ∧
      (VDFrameOutput.copyFrame c pin lock waitRelative fuel timeoutUsec q).2.vd.mFrameAvailable
        = false ∧
      (VDFrameOutput.copyFrame c pin lock waitRelative fuel timeoutUsec q).1 ≠
        .returned c.ETIMEDOUT := by
    intro q hobs
    have e := copyFrame_of_observed c pin lock waitRelative hE fuel timeoutUsec q hobs
    refine ⟨copyFrameLocked_of_observed c waitRelative hE timeoutUsec q.vd hobs, e, ?_, ?_⟩
    · rw [e]
      exact (drainLoop_keeps_flag c pin lock fuel _).1
    · rw [e]
      intro hcontra
      rcases drainLoop_outcome c pin lock fuel
        { q with vd := { q.vd with mFrameAvailable := false } } with h | h | h
      · rw [h] at hcontra
        injection hcontra with h1
        omega
      · rw [h] at hcontra
        cases hcontra
      · rw [h] at hcontra
        cases hcontra
  refine ⟨key p, ?_, ?_⟩
  · have h := key { p with vd := VDFrameOutput.onFrameAvailable p.vd } (Or.inl rfl)
    exact ⟨h.2.2.1, h.2.2.2⟩
  · intro hret
    by_contra hobs
    obtain ⟨status, hs, e⟩ :=
      copyFrame_of_not_observed c pin lock waitRelative fuel timeoutUsec p hobs
    rw [e] at hret
    injection hret with h1
    omega

/-- C5 (amended): each drain step selects an item of the pool whose timestamp
is strictly above the baseline, picked by arrival position and not by smallest
timestamp.  With the scan calling `compare(candidate, currentBest)` it is the
last item in arrival order whenever that item is strictly above the baseline;
with the scan calling `compare(currentBest, candidate)` it is the first item in
arrival order that is strictly above the baseline. -/
theorem pinSelectedBuffer_selects_by_arrival_position (f : TimestampFinder)
    (pool : List BufferItem) :
    (∀ item, pinSelectedBuffer f pool = some item →
      item ∈ pool ∧ f.mTimestamp < item.mTimestamp) ∧
    (∀ item, pool.getLast? = some item → f.mTimestamp < item.mTimestamp →
      pinSelectedBuffer f pool = some item) ∧
    pinSelectedBufferBestFirst f pool =
      pool.find? (fun item => decide (f.mTimestamp < item.mTimestamp)) := by
  refine ⟨?_, ?_, pinSelectedBufferBestFirst_eq_find f pool⟩
  · intro item h
    obtain ⟨h1, h2⟩ := pinSelectedBuffer_sound f pool item h
    exact ⟨h1, (designated_iff _ _).1 h2⟩
  · intro item hlast hlt
    obtain ⟨ys, rfl⟩ := List.getLast?_eq_some_iff.1 hlast
    rw [pinSelectedBuffer_snoc, if_pos hlt]

theorem pinSelectedBuffer_selects_by_arrival_position_witness :
    scenarioPool.getLast? = some frame3 ∧
    timestampFinder0.mTimestamp < frame3.mTimestamp ∧
    pinSelectedBuffer timestampFinder0 scenarioPool = some frame3 :=
  ⟨by decide, by decide,
   (pinSelectedBuffer_selects_by_arrival_position timestampFinder0 scenarioPool).2.1
     frame3 (by decide) (by decide)⟩

/-- C5 (counterexample): in the scenario pool (1,100), (2,150), (3,120) with
baseline 0, frame 1 has the smallest timestamp above the baseline, yet the scan
selects frame 3 and `copyFrame` processes frame 3 only; with the comparator
arguments the other way round `copyFrame` processes frame 1 and then frame 2,
skipping frame 3.  Neither is the order frame 1, frame 3, frame 2. -/
theorem scenario_not_smallest_qualifying :
    frame1 ∈ scenarioPool ∧ timestampFinder0.mTimestamp < frame1.mTimestamp ∧
    frame1.mTimestamp < frame3.mTimestamp ∧
    pinSelectedBuffer timestampFinder0 scenarioPool = some frame3 ∧
    VDFrameOutput.copyFrame androidCodes (staticPool pinSelectedBuffer) (lockOk androidCodes)
        (waitTimesOut androidCodes) 8 0 (signalledOver scenarioPool) =
      (.returned 0,
        { vd := { mFrameAvailable := false, mRingBufferConsumer := some scenarioPool,
                  mContainerId := 0 }
          timestampFinder := { mTimestamp := 120 }
          trace := [.pinSelectedBuffer { mTimestamp := 0 } (some frame3),
                    .processBufferItem (.locked frame3),
                    .pinSelectedBuffer { mTimestamp := 120 } none] }) ∧
    processedItems
        (VDFrameOutput.copyFrame androidCodes (staticPool pinSelectedBuffer)
          (lockOk androidCodes) (waitTimesOut androidCodes) 8 0
          (signalledOver scenarioPool)).2.trace ≠ [frame1, frame3, frame2] ∧
    processedItems
        (VDFrameOutput.copyFrame androidCodes (staticPool pinSelectedBufferBestFirst)
          (lockOk androidCodes) (waitTimesOut androidCodes) 8 0
          (signalledOver scenarioPool)).2.trace = [frame1, frame2] := by
  decide

theorem copyFrame_processes_strictly_increasing_witness :
    (∀ pool f item pool1, staticPool pinSelectedBuffer pool f = (some item, pool1) →
      Designated f item) ∧
    List.Pairwise (fun a b => a < b)
      (processedTimestamps (runCalls androidCodes (staticPool pinSelectedBuffer) lockFails
        (scenarioCalls androidCodes) (Process.start (idleOver scenarioPool).vd)).trace) ∧
    (processedItems (runCalls androidCodes (staticPool pinSelectedBuffer) lockFails
        (scenarioCalls androidCodes) (Process.start (idleOver scenarioPool).vd)).trace).Nodup :=
  ⟨fun pool f item _ h =>
      (pinSelectedBuffer_sound f pool item (congrArg Prod.fst h)).2,
   copyFrame_processes_strictly_increasing androidCodes (staticPool pinSelectedBuffer)
     lockFails
     (fun pool f item _ h => (pinSelectedBuffer_sound f pool item (congrArg Prod.fst h)).2)
     (scenarioCalls androidCodes) (idleOver scenarioPool).vd⟩

theorem copyFrame_timeout_consumes_nothing_witness :
    (idleOver scenarioPool).vd.mFrameAvailable = false ∧
    (waitTimesOut androidCodes (0 * 1000)).cc = -androidCodes.ETIMEDOUT ∧
    VDFrameOutput.copyFrame androidCodes (staticPool pinSelectedBuffer) lockFails
        (waitTimesOut androidCodes) 8 0 (idleOver scenarioPool) =
      (.returned androidCodes.ETIMEDOUT,
        { idleOver scenarioPool with
          vd := if (waitTimesOut androidCodes (0 * 1000)).signalled
            then VDFrameOutput.onFrameAvailable (idleOver scenarioPool).vd
            else (idleOver scenarioPool).vd }) :=
  ⟨rfl, rfl,
   (copyFrame_timeout_consumes_nothing androidCodes (staticPool pinSelectedBuffer) lockFails
     (waitTimesOut androidCodes) 8 0 (idleOver scenarioPool) rfl (Or.inl rfl)).1⟩

theorem copyFrame_lock_failure_never_propagates_witness :
    (∀ f pool item, pinSelectedBuffer f pool = some item → item ∈ pool ∧ Designated f item) ∧
    androidCodes.ETIMEDOUT ≠ 0 ∧
    (signalledOver scenarioPool).vd.mRingBufferConsumer = some scenarioPool ∧
    SignalObserved (waitTimesOut androidCodes) 0 (signalledOver scenarioPool).vd ∧
    (qualifying (signalledOver scenarioPool).timestampFinder scenarioPool).length < 8 ∧
    (VDFrameOutput.copyFrame androidCodes (staticPool pinSelectedBuffer) lockFails
        (waitTimesOut androidCodes) 8 0 (signalledOver scenarioPool)).1 =
      .returned androidCodes.NO_ERROR :=
  ⟨pinSelectedBuffer_sound, by decide, rfl, Or.inl rfl, by decide,
   (copyFrame_lock_failure_never_propagates androidCodes pinSelectedBuffer
     pinSelectedBuffer_sound lockFails (waitTimesOut androidCodes) 8 0
     (signalledOver scenarioPool) scenarioPool (by decide) rfl (Or.inl rfl) (by decide)).1⟩

theorem copyFrame_consumes_signal_when_observed_witness :
    androidCodes.NO_ERROR = 0 ∧ androidCodes.ETIMEDOUT ≠ 0 ∧
    (VDFrameOutput.copyFrame androidCodes (staticPool pinSelectedBuffer) lockFails
        (waitTimesOut androidCodes) 8 0
        { idleOver scenarioPool with
          vd := VDFrameOutput.onFrameAvailable (idleOver scenarioPool).vd }).2.vd.mFrameAvailable
      = false ∧
    (VDFrameOutput.copyFrame androidCodes (staticPool pinSelectedBuffer) lockFails
        (waitTimesOut androidCodes) 8 0
        { idleOver scenarioPool with
          vd := VDFrameOutput.onFrameAvailable (idleOver scenarioPool).vd }).1
      ≠ .returned androidCodes.ETIMEDOUT :=
  ⟨rfl, by decide,
   (copyFrame_consumes_signal_when_observed androidCodes (staticPool pinSelectedBuffer)
     lockFails (waitTimesOut androidCodes) 8 0 (idleOver scenarioPool) rfl (by decide)).2.1⟩

/-! ## Claims settled after the first ten -/

/-- C11 (the code at the failing input): with baseline 100, A = (frame 1,
timestamp 100) and B = (frame 2, timestamp 150), only B exceeds the baseline,
yet `compare(A, B)` returns 0 (SELECT_NEITHER), not SELECT_I2; the mirrored
call `compare(B, A)` does return SELECT_I1. -/
theorem compare_second_only_above_returns_neither :
    (TimestampFinder.mk 100).compare (some (BufferInfo.mk 1 100)) (some (BufferInfo.mk 2 150)) =
      TimestampFinder.SELECT_NEITHER ∧
    TimestampFinder.SELECT_NEITHER ≠ TimestampFinder.SELECT_I2 ∧
    (TimestampFinder.mk 100).compare (some (BufferInfo.mk 2 150)) (some (BufferInfo.mk 1 100)) =
      TimestampFinder.SELECT_I1 := by
  decide

/-- C12: `reset` is idempotent; after it the pool reference is NULL while
`mFrameAvailable` and `mContainerId` keep their values, and on a state whose
pool reference is already NULL it changes nothing. -/
theorem reset_idempotent {σ : Type} (vd : VDFrameOutput σ) :
    VDFrameOutput.reset (VDFrameOutput.reset vd) = VDFrameOutput.reset vd ∧
    (VDFrameOutput.reset vd).mRingBufferConsumer = none ∧
    (VDFrameOutput.reset vd).mFrameAvailable = vd.mFrameAvailable ∧
    (VDFrameOutput.reset vd).mContainerId = vd.mContainerId ∧
    (vd.mRingBufferConsumer = none → VDFrameOutput.reset vd = vd) := by
  unfold VDFrameOutput.reset
  cases h : vd.mRingBufferConsumer with
  | none => simp [h]
  | some pool => simp

theorem reset_idempotent_witness :
    (VDFrameOutput.init 7 : VDFrameOutput (List BufferItem)).mRingBufferConsumer = none ∧
    VDFrameOutput.reset (VDFrameOutput.init 7 : VDFrameOutput (List BufferItem)) =
      VDFrameOutput.init 7 :=
  ⟨rfl, (reset_idempotent (VDFrameOutput.init 7 : VDFrameOutput (List BufferItem))).2.2.2.2 rfl⟩

/-- C13: over a pool that does not change during the call and whose scan hands
out only items of the pool that the comparator designates under the current
baseline, the drain loop ends with `NO_ERROR` as soon as the iteration budget
exceeds the number of pool items strictly above the entry baseline; it selects
and processes at most that many items, makes at most one more
`pinSelectedBuffer` call than that, and a larger budget changes nothing. -/
theorem drainLoop_terminates_within_qualifying (c : StatusCodes)
    (scan : TimestampFinder → List BufferItem → Option BufferItem)
    (hscan : ∀ f pool item, scan f pool = some item → item ∈ pool ∧ Designated f item)
    (lock : BufferItem → Int) (fuel : Nat) (p : Process (List BufferItem))
    (pool : List BufferItem)
    (hpool : p.vd.mRingBufferConsumer = some pool)
    (hfuel : (qualifying p.timestampFinder pool).length < fuel) :
    (VDFrameOutput.drainLoop c (staticPool scan) lock fuel p).1 = .returned c.NO_ERROR ∧
    (processedItems (VDFrameOutput.drainLoop c (staticPool scan) lock fuel p).2.trace).length ≤
      (processedItems p.trace).length + (qualifying p.timestampFinder pool).length ∧
    pinCalls (VDFrameOutput.drainLoop c (staticPool scan) lock fuel p).2.trace ≤
      pinCalls p.trace + (qualifying p.timestampFinder pool).length + 1 ∧
    (∀ fuel2, fuel ≤ fuel2 →
      VDFrameOutput.drainLoop c (staticPool scan) lock fuel2 p =
        VDFrameOutput.drainLoop c (staticPool scan) lock fuel p) := by
  obtain ⟨hret, hcount⟩ := drainLoop_static_returns c scan lock hscan fuel p pool hpool hfuel
  have hpins := drainLoop_pinCalls c (staticPool scan) lock fuel p hret
  refine ⟨hret, hcount, by omega, ?_⟩
  intro fuel2 hle
  exact drainLoop_fuel_mono c (staticPool scan) lock fuel p
    (by rw [hret]; intro h; cases h) fuel2 hle

theorem drainLoop_terminates_within_qualifying_witness :
    (∀ f pool item, pinSelectedBufferBestFirst f pool = some item →
      item ∈ pool ∧ Designated f item) ∧
    (signalledOver scenarioPool).vd.mRingBufferConsumer = some scenarioPool ∧
    (qualifying (signalledOver scenarioPool).timestampFinder scenarioPool).length < 4 ∧
    (VDFrameOutput.drainLoop androidCodes (staticPool pinSelectedBufferBestFirst) lockFails 4
        (signalledOver scenarioPool)).1 = .returned androidCodes.NO_ERROR :=
  ⟨pinSelectedBufferBestFirst_sound, rfl, by decide,
   (drainLoop_terminates_within_qualifying androidCodes pinSelectedBufferBestFirst
     pinSelectedBufferBestFirst_sound lockFails 4 (signalledOver scenarioPool) scenarioPool
     rfl (by decide)).1⟩

end VD
